import Mathlib

/-!
Verification of the WardenCalculator core (src/calculator.py) against its
natural-language specification.

The development shallowly embeds the program:
  * Python string helpers (`str.lower`, `str.split(' ')`, `str.strip`,
    `str.isalpha`) become structurally recursive functions on `List Char`.
  * `float(token)` becomes `parseFloat : String → Option ℚ`, covering the
    finite decimal literals (optional sign, digits, optional fraction,
    optional exponent).  Python's special tokens `inf`/`nan` and underscore
    separators are outside the modelled domain; every such token either never
    reaches `float()` in the program or is irrelevant to the claims.
  * The evaluation part of `CalculatorMethods.process` (lines 240-261), which
    lowercases the line, splits it on single spaces and dispatches on the
    token count, becomes the computable `dispatchTokens` / `dispatch`
    producing an `Outcome`: either the bound evaluator is invoked with the
    parsed arguments, or the literal-"0" zero-denominator guard fires
    (`raise ZeroDivisionError()`), or a sentinel (`stop`, clear) fires, or
    the input is rejected (`raise ValueError(...)`).
  * The bound evaluators `__add/__subtract/__divide/__multiply/__sin/__cos/
    __tan/__sqrt` become `applyKey`.  Exact rational/real arithmetic stands
    in for IEEE doubles ("to floating-point precision" in the spec).
    Python-level exceptions are modelled by the classified results:
    `float` division by zero raises `ZeroDivisionError` (caught, reported as
    division by zero), `math.sqrt` of a negative raises `ValueError` (caught
    by the same handler as invalid input), and calling the `None` entry of
    the table or indexing a missing `args[i]` raises an uncaught
    `TypeError`/`IndexError` (modelled as `crash`).
  * `SaveManager` (history) becomes list functions: `saveaction` appends,
    `getentries number` is the Python slice `actionlist[-number:]`
    (`pySliceFrom`), `clear` empties the list; the history document is a
    `List Entry` with `Entry = String × ℝ` (raw action text ↦ result).
  * `ConfigManager` becomes functions over `Option Opts` where
    `Opts = List (String × String)` is the `Calculator` section's options
    (`none` = no such section): `ensureoption`, `initconfig`,
    `getconfigfield` (which strips every double-quote character, modelling
    `value.replace('"', '')`).
  * `SaveManager.__initsaves`' normalisation of the backing file becomes
    `initsaves : FileState → FileState` over raw file contents: a missing
    file is created empty, and a zero-length file is overwritten with
    `json.dump({"actions": []}, ..., indent=4)`; any other contents are left
    untouched.
-/

namespace WardenCalc

/-! ## Python string primitives -/

/-- Python `str.lower()` restricted to the basic-latin range (all strings the
claims touch are in that range), as used at line 240 of the source. -/
def pyLower (s : String) : String := String.mk (s.data.map Char.toLower)

/-- Helper for `pySplit`: accumulates the current field (reversed) and cuts at
every single space character, exactly like Python's `str.split(' ')`. -/
def pySplitAux : List Char → List Char → List String
  | [], acc => [String.mk acc.reverse]
  | c :: cs, acc =>
      if c = ' ' then String.mk acc.reverse :: pySplitAux cs []
      else pySplitAux cs (c :: acc)

/-- Python `s.split(' ')`: split on every single space, keeping empty fields;
`"".split(' ') = [""]`. -/
def pySplit (s : String) : List String := pySplitAux s.data []

/-- Python `str.isalpha()`: nonempty and every character alphabetic. -/
def pyIsAlpha (s : String) : Bool := !s.data.isEmpty && s.data.all Char.isAlpha

/-- Python `str.strip()`: remove leading and trailing whitespace. -/
def pyStrip (s : String) : String :=
  String.mk ((s.data.dropWhile Char.isWhitespace).reverse.dropWhile Char.isWhitespace).reverse

/-- The token list `actionsplit` produced at lines 240-241:
`input(...).lower().split(' ')`. -/
def pyTokens (s : String) : List String := pySplit (pyLower s)

/-! ## `float(token)` on the lowercased tokens -/

/-- Numeric value of a digit string (most significant first). -/
def natOfDigits (cs : List Char) : ℕ :=
  cs.foldl (fun n c => 10 * n + (c.toNat - 48)) 0

/-- Every character is a decimal digit. -/
def allDigits (cs : List Char) : Bool := cs.all Char.isDigit

/-- Mantissa of a float literal, split at the first `.`: `ip` is the part
before it, the second argument is what `dropWhile` left (empty when there is
no dot, otherwise the dot followed by the fractional digits).  Valid shapes:
`digits`, `digits.digits`, `digits.` and `.digits` — at least one digit in
total. -/
def parseMantissaCore (ip : List Char) : List Char → Option ℚ
  | [] =>
      if allDigits ip && !ip.isEmpty then some (natOfDigits ip) else none
  | _ :: fp =>
      if allDigits ip && allDigits fp && !(ip.isEmpty && fp.isEmpty) then
        some ((natOfDigits ip : ℚ) + (natOfDigits fp : ℚ) / (10 : ℚ) ^ fp.length)
      else none

/-- Mantissa of a float literal (`digits[.digits]` with ≥ 1 digit). -/
def parseMantissa (cs : List Char) : Option ℚ :=
  parseMantissaCore (cs.takeWhile (fun c => c ≠ '.')) (cs.dropWhile (fun c => c ≠ '.'))

/-- Exponent part after `e`: optional sign then a nonempty digit string. -/
def parseExp (cs : List Char) : Option ℤ :=
  match cs with
  | '+' :: ds => if allDigits ds && !ds.isEmpty then some (natOfDigits ds : ℤ) else none
  | '-' :: ds => if allDigits ds && !ds.isEmpty then some (-(natOfDigits ds : ℤ)) else none
  | ds => if allDigits ds && !ds.isEmpty then some (natOfDigits ds : ℤ) else none

/-- Unsigned float literal split at the first `e`: `mant` is the mantissa
part, the second argument is what `dropWhile` left (empty when there is no
exponent, otherwise `e` followed by the exponent). -/
def parseUnsignedCore (mant : List Char) : List Char → Option ℚ
  | [] => parseMantissa mant
  | _ :: ecs =>
      match parseMantissa mant, parseExp ecs with
      | some m, some e => some (m * (10 : ℚ) ^ e)
      | _, _ => none

/-- Unsigned float literal: mantissa with optional `e`-exponent. -/
def parseUnsigned (cs : List Char) : Option ℚ :=
  parseUnsignedCore (cs.takeWhile (fun c => c ≠ 'e')) (cs.dropWhile (fun c => c ≠ 'e'))

/-- Optional leading sign. -/
def parseSigned : List Char → Option ℚ
  | '+' :: cs => parseUnsigned cs
  | '-' :: cs => (parseUnsigned cs).map (fun q => -q)
  | cs => parseUnsigned cs

/-- Python `float(token)` for the finite decimal literals, on the lowercased
tokens the program feeds it (so only `e` exponents appear).  `none` models a
raised `ValueError`. -/
def parseFloat (s : String) : Option ℚ := parseSigned s.data

/-! ## The operation table and dispatch (`CalculatorMethods`) -/

/-- The keys of `self.__actionsigns` (line 146-148). -/
inductive ActionKey : Type
  | add | sub | div | mul | sin | cos | tan | sqrt | stop | clearHistory
deriving DecidableEq

/-- Membership of a token in `self.__actionsigns.keys()`. -/
def keyOfToken : String → Option ActionKey
  | "+" => some .add
  | "-" => some .sub
  | "/" => some .div
  | "*" => some .mul
  | "sin" => some .sin
  | "cos" => some .cos
  | "tan" => some .tan
  | "sqrt" => some .sqrt
  | "stop" => some .stop
  | "clear history" => some .clearHistory
  | _ => none

/-- What the dispatch part of `process` (lines 243-261) does before any bound
evaluator runs: invoke an evaluator with parsed arguments, fire the literal
`"0"` guard (`raise ZeroDivisionError()`, line 246), hit a sentinel, or
reject the line (`raise ValueError(...)`). -/
inductive Outcome : Type
  | invoke (k : ActionKey) (args : List ℚ)
  | divByZeroGuard
  | stopTok
  | clearTok
  | invalid
deriving DecidableEq

/-- Dispatch on `actionsplit` (lines 244-261).  The 3-token branch requires
both outer tokens non-alphabetic and the middle token a table key, fires the
guard when the third token is literally `"0"`, then parses both floats
(a parse failure is a caught `ValueError`, i.e. invalid input).  The 2-token
branch requires the first token a table key and the second non-alphabetic.
The 1-token branch recognises `stop` and `strip().lower() ∈ {clear,
clearhistory}`.  Everything else raises `ValueError` (invalid input). -/
def dispatchTokens : List String → Outcome
  | [a, op, b] =>
      match keyOfToken op with
      | some k =>
          if pyIsAlpha a = false ∧ pyIsAlpha b = false then
            if b = "0" then .divByZeroGuard
            else
              match parseFloat a, parseFloat b with
              | some x, some y => .invoke k [x, y]
              | _, _ => .invalid
          else .invalid
      | none => .invalid
  | [op, b] =>
      match keyOfToken op with
      | some k =>
          if pyIsAlpha b = false then
            match parseFloat b with
            | some y => .invoke k [y]
            | none => .invalid
          else .invalid
      | none => .invalid
  | [t] =>
      if t = "stop" then .stopTok
      else if pyLower (pyStrip t) = "clear" ∨ pyLower (pyStrip t) = "clearhistory" then .clearTok
      else .invalid
  | _ => .invalid

/-- Dispatch on a raw input line: lowercase, split, dispatch. -/
def dispatch (s : String) : Outcome := dispatchTokens (pyTokens s)

/-- Classified outcome of one evaluation, as the shell observes it.
`ok v` is a computed numeric result (afterwards appended to history),
`crash` is an uncaught exception (`TypeError` from calling the `None` table
entry, or `IndexError` from a missing `args[i]`). -/
inductive EvalResult : Type
  | ok (v : ℝ)
  | invalidInput
  | divisionByZero
  | stopCmd
  | clearCmd
  | crash

/-- `math.radians`: degrees to radians. -/
noncomputable def pyRadians (x : ℝ) : ℝ := x * Real.pi / 180

/-- The bound evaluators (lines 150-216) applied to the parsed argument list.
Binary evaluators use `args[0]` and `args[1]`; unary ones use `args[0]` only
(so a unary key reached through the 3-token form ignores the second
argument).  `__divide` by zero raises `ZeroDivisionError` (caught, reported
as division by zero); `math.sqrt` of a negative raises `ValueError` (caught
by the same handler as invalid input); a missing argument or a `None` table
entry (`stop`, `clear history`) raises an uncaught exception. -/
noncomputable def applyKey : ActionKey → List ℚ → EvalResult
  | .add, x :: y :: _ => .ok ((x : ℝ) + (y : ℝ))
  | .sub, x :: y :: _ => .ok ((x : ℝ) - (y : ℝ))
  | .div, x :: y :: _ => if y = 0 then .divisionByZero else .ok ((x : ℝ) / (y : ℝ))
  | .mul, x :: y :: _ => .ok ((x : ℝ) * (y : ℝ))
  | .sin, x :: _ => .ok (Real.sin (pyRadians (x : ℝ)))
  | .cos, x :: _ => .ok (Real.cos (pyRadians (x : ℝ)))
  | .tan, x :: _ => .ok (Real.tan (pyRadians (x : ℝ)))
  | .sqrt, x :: _ => if x < 0 then .invalidInput else .ok (Real.sqrt (x : ℝ))
  | _, _ => .crash

/-- Full evaluation of one input line, combining dispatch, the guard, the
sentinels and the bound evaluators: what `process` computes from the line
before deciding whether to write history. -/
noncomputable def evaluate (s : String) : EvalResult :=
  match dispatch s with
  | .invoke k args => applyKey k args
  | .divByZeroGuard => .divisionByZero
  | .stopTok => .stopCmd
  | .clearTok => .clearCmd
  | .invalid => .invalidInput

/-! ## History (`SaveManager`) -/

/-- One history entry `{action: result}`: raw (lowercased) action text and
its numeric result. -/
abbrev Entry : Type := String × ℝ

/-- `SaveManager.saveaction` (lines 101-112): read the array, append the new
entry, write the array back. -/
def saveaction (action : String) (result : ℝ) (l : List Entry) : List Entry :=
  l ++ [(action, result)]

/-- Python list slice `l[k:]` for an integer `k`: for `k ≥ 0` drop the first
`min k (length l)` elements, for `k < 0` keep the last `min (-k) (length l)`
elements. -/
def pySliceFrom (k : ℤ) (l : List Entry) : List Entry :=
  if 0 ≤ k then l.drop k.toNat else l.drop (l.length - (-k).toNat)

/-- `SaveManager.getentries` (lines 114-123): `return actionlist[-number:]`. -/
def getentries (number : ℤ) (l : List Entry) : List Entry :=
  pySliceFrom (-number) l

/-- `SaveManager.clear` (lines 125-130): overwrite with the empty array. -/
def clearEntries (_l : List Entry) : List Entry := []

/-- Effect of one `process` call (lines 243-271) on the history document:
only a computed numeric result is appended (keyed by the lowercased raw
line, line 271); the clear sentinel empties the document; every classified
failure, the stop sentinel and a crash leave it untouched. -/
noncomputable def processStep (l : List Entry) (s : String) : List Entry :=
  match evaluate s with
  | .ok v => saveaction (pyLower s) v l
  | .clearCmd => clearEntries l
  | _ => l

/-! ## Save-file initialisation (`SaveManager.__initsaves`) -/

/-- State of the backing save file: missing, or present with raw contents. -/
inductive FileState : Type
  | missing
  | file (contents : String)
deriving DecidableEq

/-- The bytes `json.dump({"actions": []}, save, indent=4)` writes. -/
def emptySaveDoc : String := "\x7b\n    \"actions\": []\n\x7d"

/-- `__initsaves` (lines 83-99) on the backing file: a missing file is
created empty (`open(..., 'a')`) and then, having length 0, is overwritten
with the empty-array document; an existing file is overwritten with the
empty-array document only when `len(save.read()) == 0`, otherwise its
contents are left untouched. -/
def initsaves : FileState → FileState
  | .missing => .file emptySaveDoc
  | .file c => .file (if c.length = 0 then emptySaveDoc else c)

/-! ## Configuration (`ConfigManager`) -/

/-- The options of the `Calculator` section, in insertion order. -/
abbrev Opts : Type := List (String × String)

/-- Option lookup within a section (`ConfigParser.get` after the section is
found). -/
def lookupOpt : Opts → String → Option String
  | [], _ => none
  | (k, v) :: rest, o => if k = o then some v else lookupOpt rest o

/-- `ConfigParser.set`: replace the value of an existing option, else append
the option. -/
def setOpt : Opts → String → String → Opts
  | [], o, v => [(o, v)]
  | (k, w) :: rest, o, v =>
      if k = o then (o, v) :: rest else (k, w) :: setOpt rest o v

/-- `self.__config.get("Calculator", option)`: `none` models a raised
`NoSectionError` (no `Calculator` section) or `NoOptionError`. -/
def lookupConfig (cfg : Option Opts) (o : String) : Option String :=
  cfg.bind (fun opts => lookupOpt opts o)

/-- `ConfigManager.__ensureoption` (lines 23-37): return the stored value if
the lookup succeeds; otherwise add the `Calculator` section if missing, set
the option to the default and return the default.  The result is the
returned value and the configuration afterwards. -/
def ensureoption (cfg : Option Opts) (o d : String) : String × Option Opts :=
  match lookupConfig cfg o with
  | some v => (v, cfg)
  | none => (d, some (setOpt (cfg.getD []) o d))

/-- `self.__default_savepath` (line 18): the path with a literal pair of
embedded double-quote characters. -/
def default_savepath : String := "\"calc_data/saved_actions.json\""

/-- The `__ensureoption` calls of `__initconfig` (lines 48-50) in source
order: `showhistory`, `savepath`, `showentrysum` (`str(True) = "True"`). -/
def initconfig (cfg : Option Opts) : Option Opts :=
  (ensureoption
    (ensureoption
      (ensureoption cfg "showhistory" "True").2
      "savepath" default_savepath).2
    "showentrysum" "True").2

/-- `value.replace('"', '')`: remove every double-quote character. -/
def stripQuotes (s : String) : String :=
  String.mk (s.data.filter (fun c => c ≠ '"'))

/-- `ConfigManager.getconfigfield` (lines 55-67): `none` when the section or
option is absent, otherwise the stored value with every `"` removed. -/
def getconfigfield (cfg : Option Opts) (field : String) : Option String :=
  (lookupConfig cfg field).map stripQuotes

/-! ## Supporting lemmas -/

/-- A decimal digit is not an alphabetic character. -/
lemma digit_not_alpha {c : Char} (h : c.isDigit = true) : c.isAlpha = false := by
  simp [Char.isDigit, UInt32.le_def, BitVec.le_def] at h
  simp [Char.isAlpha, Char.isUpper, Char.isLower, UInt32.le_def, BitVec.le_def]
  omega

/-- A nonempty all-digit string contains a digit. -/
lemma exists_digit_of_allDigits {cs : List Char} (h : allDigits cs = true)
    (hne : cs.isEmpty = false) : ∃ c ∈ cs, c.isDigit = true := by
  cases cs with
  | nil => simp at hne
  | cons c cs =>
      exact ⟨c, List.mem_cons_self c cs, List.all_eq_true.mp h c (List.mem_cons_self c cs)⟩

lemma parseMantissaCore_hasDigit {ip rest : List Char} {q : ℚ}
    (h : parseMantissaCore ip rest = some q) :
    (∃ c ∈ ip, c.isDigit = true) ∨ (∃ c ∈ rest.tail, c.isDigit = true) := by
  cases rest with
  | nil =>
      left
      simp only [parseMantissaCore] at h
      split_ifs at h with hc
      rw [Bool.and_eq_true, Bool.not_eq_true'] at hc
      exact exists_digit_of_allDigits hc.1 hc.2
  | cons c0 fp =>
      simp only [parseMantissaCore] at h
      split_ifs at h with hc
      simp only [Bool.and_eq_true, Bool.not_eq_true'] at hc
      obtain ⟨⟨h1, h2⟩, h3⟩ := hc
      rcases Bool.and_eq_false_iff.mp h3 with hip | hfp
      · exact Or.inl (exists_digit_of_allDigits h1 hip)
      · exact Or.inr (by simpa using exists_digit_of_allDigits h2 hfp)

lemma parseMantissa_hasDigit {cs : List Char} {q : ℚ} (h : parseMantissa cs = some q) :
    ∃ c ∈ cs, c.isDigit = true := by
  rcases parseMantissaCore_hasDigit h with ⟨c, hc, hd⟩ | ⟨c, hc, hd⟩
  · exact ⟨c, (List.takeWhile_sublist _).subset hc, hd⟩
  · exact ⟨c, ((List.tail_sublist _).trans (List.dropWhile_sublist _)).subset hc, hd⟩

lemma parseUnsignedCore_hasDigit {mant rest : List Char} {q : ℚ}
    (h : parseUnsignedCore mant rest = some q) :
    ∃ c ∈ mant, c.isDigit = true := by
  cases rest with
  | nil => exact parseMantissa_hasDigit h
  | cons c0 ecs =>
      simp only [parseUnsignedCore] at h
      rcases hm : parseMantissa mant with _ | m <;> rw [hm] at h
      · exact absurd h (by simp)
      · exact parseMantissa_hasDigit hm

lemma parseUnsigned_hasDigit {cs : List Char} {q : ℚ} (h : parseUnsigned cs = some q) :
    ∃ c ∈ cs, c.isDigit = true := by
  obtain ⟨c, hc, hd⟩ := parseUnsignedCore_hasDigit h
  exact ⟨c, (List.takeWhile_sublist _).subset hc, hd⟩

lemma parseSigned_hasDigit {cs : List Char} {q : ℚ} (h : parseSigned cs = some q) :
    ∃ c ∈ cs, c.isDigit = true := by
  unfold parseSigned at h
  split at h
  · obtain ⟨c, hc, hd⟩ := parseUnsigned_hasDigit h
    exact ⟨c, List.mem_cons_of_mem _ hc, hd⟩
  · rcases Option.map_eq_some'.mp h with ⟨a, ha, _⟩
    obtain ⟨c, hc, hd⟩ := parseUnsigned_hasDigit ha
    exact ⟨c, List.mem_cons_of_mem _ hc, hd⟩
  · exact parseUnsigned_hasDigit h

/-- A token `float()` accepts is not `isalpha`: it contains a digit. -/
lemma parseFloat_not_alpha {s : String} {x : ℚ} (h : parseFloat s = some x) :
    pyIsAlpha s = false := by
  obtain ⟨c, hc, hd⟩ := parseSigned_hasDigit h
  unfold pyIsAlpha
  have hall : s.data.all Char.isAlpha = false :=
    List.all_eq_false.mpr ⟨c, hc, by simp [digit_not_alpha hd]⟩
  rw [hall]
  simp

/-- Setting an option then looking it up yields the set value. -/
lemma lookupOpt_setOpt_self (l : Opts) (o d : String) :
    lookupOpt (setOpt l o d) o = some d := by
  induction l with
  | nil => simp [setOpt, lookupOpt]
  | cons kv rest ih =>
      obtain ⟨k, w⟩ := kv
      by_cases h : k = o <;> simp [setOpt, lookupOpt, h, ih]

/-- Dispatch of a valid 3-token action line. -/
lemma dispatchTokens_invoke3 {a op b : String} {k : ActionKey} {x y : ℚ}
    (hk : keyOfToken op = some k) (ha : pyIsAlpha a = false) (hb : pyIsAlpha b = false)
    (hb0 : b ≠ "0") (hx : parseFloat a = some x) (hy : parseFloat b = some y) :
    dispatchTokens [a, op, b] = .invoke k [x, y] := by
  simp only [dispatchTokens, hk]
  rw [if_pos ⟨ha, hb⟩, if_neg hb0, hx, hy]

/-- Dispatch of a valid 2-token action line. -/
lemma dispatchTokens_invoke2 {op b : String} {k : ActionKey} {y : ℚ}
    (hk : keyOfToken op = some k) (hb : pyIsAlpha b = false)
    (hy : parseFloat b = some y) :
    dispatchTokens [op, b] = .invoke k [y] := by
  simp only [dispatchTokens, hk]
  rw [if_pos hb, hy]

lemma evaluate_invoke {s : String} {k : ActionKey} {args : List ℚ}
    (h : dispatch s = .invoke k args) : evaluate s = applyKey k args := by
  unfold evaluate
  rw [h]

lemma evaluate_guard {s : String} (h : dispatch s = .divByZeroGuard) :
    evaluate s = .divisionByZero := by
  unfold evaluate
  rw [h]

lemma evaluate_invalid {s : String} (h : dispatch s = .invalid) :
    evaluate s = .invalidInput := by
  unfold evaluate
  rw [h]

lemma evaluate_stop {s : String} (h : dispatch s = .stopTok) :
    evaluate s = .stopCmd := by
  unfold evaluate
  rw [h]

lemma evaluate_clear {s : String} (h : dispatch s = .clearTok) :
    evaluate s = .clearCmd := by
  unfold evaluate
  rw [h]

/-! ## Claim theorems -/

section ClaimTheorems

attribute [local semireducible] Rat.add Rat.mul Rat.inv Rat.sub

/-- C1 (amended): for a 3-token input whose (lowercased) token list is
`[a, op, b]` with `op ∈ {+, -, *, /}`, both outer tokens parseable as finite
decimal floats, `b` not the literal token `"0"` (for every operator — the
guard at line 246 fires before the operator is even consulted), and for `/`
the parsed denominator nonzero, evaluation returns the exact sum,
difference, product, quotient respectively. -/
theorem C1_binary_arithmetic (s a op b : String) (x y : ℚ)
    (hts : pyTokens s = [a, op, b])
    (hx : parseFloat a = some x) (hy : parseFloat b = some y)
    (hb0 : b ≠ "0") :
    (op = "+" → evaluate s = .ok ((x : ℝ) + (y : ℝ))) ∧
    (op = "-" → evaluate s = .ok ((x : ℝ) - (y : ℝ))) ∧
    (op = "*" → evaluate s = .ok ((x : ℝ) * (y : ℝ))) ∧
    (op = "/" → y ≠ 0 → evaluate s = .ok ((x : ℝ) / (y : ℝ))) := by
  have ha := parseFloat_not_alpha hx
  have hb := parseFloat_not_alpha hy
  have hd : ∀ k, keyOfToken op = some k → dispatch s = .invoke k [x, y] := by
    intro k hk
    unfold dispatch
    rw [hts]
    exact dispatchTokens_invoke3 hk ha hb hb0 hx hy
  refine ⟨?_, ?_, ?_, ?_⟩
  · rintro rfl
    rw [evaluate_invoke (hd .add rfl)]
    rfl
  · rintro rfl
    rw [evaluate_invoke (hd .sub rfl)]
    rfl
  · rintro rfl
    rw [evaluate_invoke (hd .mul rfl)]
    rfl
  · rintro rfl
    intro hy0
    rw [evaluate_invoke (hd .div rfl)]
    simp only [applyKey]
    rw [if_neg hy0]

/-- Witness for C1: `"5 + 3"` evaluates to `8`. -/
theorem C1_binary_arithmetic_witness : evaluate "5 + 3" = .ok 8 := by
  have h := (C1_binary_arithmetic "5 + 3" "5" "+" "3" 5 3 (by decide) (by decide)
    (by decide) (by decide)).1 rfl
  rw [h]
  norm_num

/-- Counterexample to C1 as stated: `"5 + 0"` has parseable outer tokens and
`op = "+"` (so the claim requires the result `5`), yet the code classifies
it as `DivisionByZero`; and `"5 / 0.0"` has denominator token `"0.0" ≠ "0"`
(so the claim requires a numeric result), yet the evaluator raises
`ZeroDivisionError`, classified as `DivisionByZero`. -/
theorem C1_binary_arithmetic_counterexample :
    evaluate "5 + 0" = .divisionByZero ∧
    evaluate "5 + 0" ≠ .ok (((5 : ℚ) : ℝ) + ((0 : ℚ) : ℝ)) ∧
    evaluate "5 / 0.0" = .divisionByZero ∧
    evaluate "5 / 0.0" ≠ .ok (((5 : ℚ) : ℝ) / ((0 : ℚ) : ℝ)) := by
  have e1 : evaluate "5 + 0" = .divisionByZero :=
    evaluate_guard (by decide)
  have h2 : dispatch "5 / 0.0" = .invoke .div [5, 0] := by decide
  have e2 : evaluate "5 / 0.0" = .divisionByZero := by
    rw [evaluate_invoke h2]
    simp only [applyKey]
    simp
  refine ⟨e1, ?_, e2, ?_⟩
  · rw [e1]
    intro h
    exact EvalResult.noConfusion h
  · rw [e2]
    intro h
    exact EvalResult.noConfusion h

/-- C2: whenever evaluation classifies the input as `DivisionByZero` or
`InvalidInput`, the history document is unchanged; the concrete examples
`"5 / 0"`, `"foo bar baz"`, `"5 ++ 3"` and `""` are so classified. -/
theorem C2_failures_leave_history (l : List Entry) (s : String)
    (h : evaluate s = .divisionByZero ∨ evaluate s = .invalidInput) :
    processStep l s = l ∧
    evaluate "5 / 0" = .divisionByZero ∧
    evaluate "foo bar baz" = .invalidInput ∧
    evaluate "5 ++ 3" = .invalidInput ∧
    evaluate "" = .invalidInput := by
  refine ⟨?_, evaluate_guard (by decide), evaluate_invalid (by decide),
    evaluate_invalid (by decide), evaluate_invalid (by decide)⟩
  unfold processStep
  rcases h with h | h <;> rw [h]

/-- Witness for C2: the failed evaluation `"5 / 0"` leaves a one-entry
history untouched. -/
theorem C2_failures_leave_history_witness :
    processStep [("1 + 1", (2 : ℝ))] "5 / 0" = [("1 + 1", (2 : ℝ))] :=
  (C2_failures_leave_history [("1 + 1", (2 : ℝ))] "5 / 0"
    (Or.inl (evaluate_guard (by decide)))).1

/-- C3 (amended): for `n ≤ 0`, `getentries n` is the Python slice
`actionlist[(-n):]` — it drops the first `-n` entries and keeps the rest, so
`n = 0` returns the whole history, and the result is empty only when
`-n ≥ length`. -/
theorem C3_nonpositive_tail (n : ℤ) (hn : n ≤ 0) (l : List Entry) :
    getentries n l = l.drop (-n).toNat := by
  unfold getentries pySliceFrom
  rw [if_pos (by omega : (0 : ℤ) ≤ -n)]

/-- Witness for C3: `getentries (-1)` on a two-entry history drops the first
entry rather than returning the empty sequence. -/
theorem C3_nonpositive_tail_witness :
    getentries (-1) [("1 + 1", (2 : ℝ)), ("2 + 2", (4 : ℝ))] = [("2 + 2", (4 : ℝ))] := by
  rw [C3_nonpositive_tail (-1) (by norm_num) _]
  rfl

/-- Counterexample to C3 as stated: `getentries 0` on a one-entry history
returns the full history, not the empty sequence. -/
theorem C3_nonpositive_tail_counterexample :
    getentries 0 [("5 + 3", (8 : ℝ))] = [("5 + 3", (8 : ℝ))] ∧
    getentries 0 [("5 + 3", (8 : ℝ))] ≠ ([] : List Entry) := by
  have e : getentries 0 [("5 + 3", (8 : ℝ))] = [("5 + 3", (8 : ℝ))] := rfl
  refine ⟨e, ?_⟩
  rw [e]
  simp

/-- C4 (amended): a 1-token input `"stop"` signals the terminal sentinel; a
1-token input whose `strip().lower()` normalisation is `"clear"` or
`"clearhistory"` signals the clear-history sentinel; any other single token
is `InvalidInput`.  The two-word table entry `"clear history"`, however,
splits into two tokens and is classified `InvalidInput`, not a sentinel. -/
theorem C4_sentinels (s t : String) (hts : pyTokens s = [t]) :
    (t = "stop" → evaluate s = .stopCmd) ∧
    (pyLower (pyStrip t) = "clear" ∨ pyLower (pyStrip t) = "clearhistory" →
      evaluate s = .clearCmd) ∧
    (t ≠ "stop" → pyLower (pyStrip t) ≠ "clear" → pyLower (pyStrip t) ≠ "clearhistory" →
      evaluate s = .invalidInput) ∧
    evaluate "clear history" = .invalidInput := by
  have hd : dispatch s = dispatchTokens [t] := by
    unfold dispatch
    rw [hts]
  refine ⟨?_, ?_, ?_, evaluate_invalid (by decide)⟩
  · rintro rfl
    refine evaluate_stop ?_
    rw [hd]
    simp [dispatchTokens]
  · intro hcl
    by_cases hstop : t = "stop"
    · subst hstop
      exact absurd hcl (by decide)
    · refine evaluate_clear ?_
      rw [hd]
      simp only [dispatchTokens]
      rw [if_neg hstop, if_pos hcl]
  · intro h1 h2 h3
    refine evaluate_invalid ?_
    rw [hd]
    simp only [dispatchTokens]
    rw [if_neg h1, if_neg (not_or.mpr ⟨h2, h3⟩)]

/-- Witness for C4: `"stop"`, `"clearhistory"` and `"quit"` at concrete
inputs. -/
theorem C4_sentinels_witness :
    evaluate "stop" = .stopCmd ∧
    evaluate "ClearHistory" = .clearCmd ∧
    evaluate "quit" = .invalidInput :=
  ⟨(C4_sentinels "stop" "stop" (by decide)).1 rfl,
   (C4_sentinels "ClearHistory" "clearhistory" (by decide)).2.1 (Or.inr (by decide)),
   (C4_sentinels "quit" "quit" (by decide)).2.2.1 (by decide) (by decide) (by decide)⟩

/-- Counterexample to C4 as stated: the two-word sentinel `"clear history"`
from the operation table is classified `InvalidInput`, not the clear-history
sentinel. -/
theorem C4_sentinels_counterexample :
    evaluate "clear history" = .invalidInput ∧
    evaluate "clear history" ≠ .clearCmd := by
  have e : evaluate "clear history" = .invalidInput := evaluate_invalid (by decide)
  refine ⟨e, ?_⟩
  rw [e]
  intro h
  exact EvalResult.noConfusion h

/-- C5 (amended): construction normalises the backing file only as far as
existence and emptiness go — a missing file is created and initialised to
the empty-array document, an existing zero-length file is initialised to the
empty-array document, and an existing nonempty file is left byte-for-byte
unchanged whether or not it parses. -/
theorem C5_initsaves (c : String) (h : c.length ≠ 0) :
    initsaves .missing = .file emptySaveDoc ∧
    initsaves (.file "") = .file emptySaveDoc ∧
    initsaves (.file c) = .file c := by
  refine ⟨rfl, by decide, ?_⟩
  simp only [initsaves]
  rw [if_neg h]

/-- Witness for C5 at the nonempty contents `"garbage"`. -/
theorem C5_initsaves_witness :
    initsaves (.file "garbage") = .file "garbage" :=
  (C5_initsaves "garbage" (by decide)).2.2

/-- Counterexample to C5 as stated: the existing unparseable (non-JSON)
contents `"garbage"` are left unchanged by construction, not initialised to
the empty-array document. -/
theorem C5_initsaves_counterexample :
    initsaves (.file "garbage") = .file "garbage" ∧
    "garbage" ≠ emptySaveDoc ∧ "garbage" ≠ "" := by decide

/-- C6: for `n ≥ 1`, `getentries n` returns the last `min n length` entries
in chronological order (it is a suffix of the history — never reordered,
never more than `n` entries), and `saveaction` followed by `getentries 1`
returns exactly the just-appended entry while preserving all earlier entries
in front of it. -/
theorem C6_tail (n : ℤ) (hn : 1 ≤ n) (l : List Entry) :
    getentries n l = l.drop (l.length - n.toNat) ∧
    (getentries n l).length = min n.toNat l.length ∧
    getentries n l <:+ l ∧
    (∀ a r, saveaction a r l = l ++ [(a, r)] ∧
      getentries 1 (saveaction a r l) = [(a, r)]) := by
  have h0 : getentries n l = l.drop (l.length - n.toNat) := by
    unfold getentries pySliceFrom
    rw [if_neg (by omega : ¬ (0 : ℤ) ≤ -n)]
    congr 1
    omega
  refine ⟨h0, ?_, ?_, ?_⟩
  · rw [h0, List.length_drop]
    omega
  · rw [h0]
    exact List.drop_suffix _ _
  · intro a r
    refine ⟨rfl, ?_⟩
    unfold getentries pySliceFrom saveaction
    rw [if_neg (by norm_num : ¬ (0 : ℤ) ≤ -1)]
    refine List.drop_left' ?_
    simp

/-- Witness for C6: appending `("5 + 3", 8)` to a one-entry history and
taking `tail 1` returns exactly the appended entry. -/
theorem C6_tail_witness :
    getentries 1 (saveaction "5 + 3" 8 [("1 * 2", (2 : ℝ))]) = [("5 + 3", (8 : ℝ))] :=
  ((C6_tail 1 (by norm_num) [("1 * 2", (2 : ℝ))]).2.2.2 "5 + 3" 8).2

/-- C7: `__ensureoption` is idempotent — an existing option is returned
unchanged with the configuration untouched, and a repeated call with the
same name and default returns the same value and leaves the configuration
exactly as after the first call. -/
theorem C7_ensureoption_idempotent (cfg : Option Opts) (o d : String) :
    (∀ v, lookupConfig cfg o = some v → ensureoption cfg o d = (v, cfg)) ∧
    ensureoption (ensureoption cfg o d).2 o d = ensureoption cfg o d := by
  constructor
  · intro v hv
    unfold ensureoption
    rw [hv]
  · rcases h : lookupConfig cfg o with _ | v
    · have e1 : ensureoption cfg o d = (d, some (setOpt (cfg.getD []) o d)) := by
        unfold ensureoption
        rw [h]
      rw [e1]
      unfold ensureoption
      rw [show lookupConfig (some (setOpt (cfg.getD []) o d)) o = some d from by
        simp only [lookupConfig, Option.bind_some]
        exact lookupOpt_setOpt_self _ o d]
    · have e1 : ensureoption cfg o d = (v, cfg) := by
        unfold ensureoption
        rw [h]
      rw [e1, e1]

/-- Witness for C7: an existing `savepath` is returned unchanged, and the
double call starting from the empty configuration is a no-op after the
first. -/
theorem C7_ensureoption_idempotent_witness :
    ensureoption (some [("savepath", "p")]) "savepath" "d" = ("p", some [("savepath", "p")]) ∧
    ensureoption (ensureoption none "savepath" "d").2 "savepath" "d" =
      ensureoption none "savepath" "d" :=
  ⟨(C7_ensureoption_idempotent (some [("savepath", "p")]) "savepath" "d").1 "p" (by decide),
   (C7_ensureoption_idempotent none "savepath" "d").2⟩

/-- C8: a 2-token input with action `sin`, `cos` or `tan` applies the
trigonometric function to the argument converted from degrees to radians;
`"sin 90"` yields exactly `1` and `"sqrt 16"` exactly `4`. -/
theorem C8_unary (s op b : String) (y : ℚ)
    (hts : pyTokens s = [op, b]) (hy : parseFloat b = some y) :
    (op = "sin" → evaluate s = .ok (Real.sin ((y : ℝ) * Real.pi / 180))) ∧
    (op = "cos" → evaluate s = .ok (Real.cos ((y : ℝ) * Real.pi / 180))) ∧
    (op = "tan" → evaluate s = .ok (Real.tan ((y : ℝ) * Real.pi / 180))) ∧
    (op = "sqrt" → 0 ≤ y → evaluate s = .ok (Real.sqrt (y : ℝ))) ∧
    evaluate "sin 90" = .ok 1 ∧
    evaluate "sqrt 16" = .ok 4 := by
  have hb := parseFloat_not_alpha hy
  have hd : ∀ k, keyOfToken op = some k → dispatch s = .invoke k [y] := by
    intro k hk
    unfold dispatch
    rw [hts]
    exact dispatchTokens_invoke2 hk hb hy
  refine ⟨?_, ?_, ?_, ?_, ?_, ?_⟩
  · rintro rfl
    rw [evaluate_invoke (hd .sin rfl)]
    rfl
  · rintro rfl
    rw [evaluate_invoke (hd .cos rfl)]
    rfl
  · rintro rfl
    rw [evaluate_invoke (hd .tan rfl)]
    rfl
  · rintro rfl
    intro hy0
    rw [evaluate_invoke (hd .sqrt rfl)]
    simp only [applyKey]
    rw [if_neg (by exact not_lt.mpr hy0)]
  · rw [evaluate_invoke (show dispatch "sin 90" = .invoke .sin [90] by decide)]
    simp only [applyKey]
    rw [show pyRadians ((90 : ℚ) : ℝ) = Real.pi / 2 from by
      unfold pyRadians
      push_cast
      ring]
    rw [Real.sin_pi_div_two]
  · rw [evaluate_invoke (show dispatch "sqrt 16" = .invoke .sqrt [16] by decide)]
    simp only [applyKey]
    rw [if_neg (by norm_num : ¬ (16 : ℚ) < 0)]
    rw [show ((16 : ℚ) : ℝ) = (4 : ℝ) ^ 2 by norm_num]
    rw [Real.sqrt_sq (by norm_num : (0 : ℝ) ≤ 4)]

/-- Witness for C8: `"sin 90"` evaluates to exactly `1` and `"sqrt 16"` to
exactly `4`. -/
theorem C8_unary_witness :
    evaluate "sin 90" = .ok 1 ∧ evaluate "sqrt 16" = .ok 4 :=
  ⟨(C8_unary "sin 90" "sin" "90" 90 (by decide) (by decide)).2.2.2.2.1,
   (C8_unary "sin 90" "sin" "90" 90 (by decide) (by decide)).2.2.2.2.2⟩

/-- C9: after first-run initialisation the stored `savepath` value embeds a
literal pair of double-quote characters, and `getconfigfield` returns it
with the quote characters stripped. -/
theorem C9_savepath_quotes :
    lookupConfig (initconfig none) "savepath" = some "\"calc_data/saved_actions.json\"" ∧
    (default_savepath.data.count '"') = 2 ∧
    getconfigfield (initconfig none) "savepath" = some "calc_data/saved_actions.json" := by
  decide

/-- C10 (implicit): the literal-`"0"` third-token guard fires before
dispatch for every recognised binary token and every non-alphabetic first
token — even an unparseable one — while a third token `"0.0"` or `"00"`
never fires the guard, and (for a parseable first token) reaches the bound
evaluator with denominator value `0`. -/
theorem C10_zero_guard (a op : String) (k : ActionKey)
    (_hop : op = "+" ∨ op = "-" ∨ op = "*" ∨ op = "/")
    (hk : keyOfToken op = some k) (ha : pyIsAlpha a = false) :
    dispatchTokens [a, op, "0"] = .divByZeroGuard ∧
    (∀ b, b = "0.0" ∨ b = "00" → dispatchTokens [a, op, b] ≠ .divByZeroGuard) ∧
    (∀ x, parseFloat a = some x → ∀ b, b = "0.0" ∨ b = "00" →
      dispatchTokens [a, op, b] = .invoke k [x, 0]) := by
  refine ⟨?_, ?_, ?_⟩
  · simp only [dispatchTokens, hk]
    rw [if_pos ⟨ha, by decide⟩]
    simp
  · rintro b (rfl | rfl)
    · simp only [dispatchTokens, hk]
      rw [if_pos ⟨ha, by decide⟩, if_neg (by decide : ¬ ("0.0" : String) = "0"),
        (by decide : parseFloat "0.0" = some 0)]
      rcases parseFloat a with _ | x <;> simp
    · simp only [dispatchTokens, hk]
      rw [if_pos ⟨ha, by decide⟩, if_neg (by decide : ¬ ("00" : String) = "0"),
        (by decide : parseFloat "00" = some 0)]
      rcases parseFloat a with _ | x <;> simp
  · rintro x hx b (rfl | rfl)
    · rw [dispatchTokens_invoke3 hk ha (by decide) (by decide) hx
        (by decide : parseFloat "0.0" = some 0)]
    · rw [dispatchTokens_invoke3 hk ha (by decide) (by decide) hx
        (by decide : parseFloat "00" = some 0)]

/-- Witness for C10 at `a = "5"`, `op = "/"`. -/
theorem C10_zero_guard_witness :
    dispatchTokens ["5", "/", "0"] = .divByZeroGuard ∧
    dispatchTokens ["5", "/", "0.0"] = .invoke .div [5, 0] := by
  have h := C10_zero_guard "5" "/" .div (Or.inr (Or.inr (Or.inr rfl))) rfl (by decide)
  exact ⟨h.1, h.2.2 5 (by decide) "0.0" (Or.inl rfl)⟩

end ClaimTheorems

end WardenCalc
